import Mathlib

/-!
Verification of the ai-search-match-framework repository against its
natural-language specification.  Each Python function named in the claims is
shallowly embedded as an executable Lean definition translated statement by
statement from the source; theorems below settle the claims.

Modelling conventions, used throughout:
* Python strings are `String`; `str.lower`, `str.title`, `str.replace` and the
  substring test `in` are modelled for the ASCII texts the claims exercise.
* Python floats (VRAM sizes, temperature-range endpoints) are `ℚ`; the values
  occurring in the repository are exact in `ℚ`.
* MD5 (`hashlib.md5(...).hexdigest()`) and HMAC-SHA256 are pure functions of
  their input; they are taken as an arbitrary function parameter
  `md5 : String → String` (resp. `hmacHex : String → String → String`), so
  every theorem quantifying over them holds for the real digest in particular.
* Raising an exception is modelled with `Except`; a method that mutates `self`
  returns the resulting state alongside its outcome.
-/

/-! ## String helpers (Python semantics) -/

/-- Python `str.lower()` (ASCII texts). -/
def strLower (s : String) : String := ⟨s.data.map Char.toLower⟩

/-- Auxiliary for the substring test: does `hay` start with `needle`? -/
def listStartsWith : List Char → List Char → Bool
  | [], _ => true
  | _ :: _, [] => false
  | n :: ns, h :: hs => n == h && listStartsWith ns hs

/-- Auxiliary for the substring test: does `needle` occur inside `hay`? -/
def listHasSub (needle hay : List Char) : Bool :=
  match hay with
  | [] => needle.isEmpty
  | _ :: hs => listStartsWith needle hay || listHasSub needle hs

/-- Python's substring test `needle in hay`. -/
def strHasSub (hay needle : String) : Bool := listHasSub needle.data hay.data

/-- Proposition: `needle` occurs as a contiguous substring of `hay`. -/
def SubstrOf (needle hay : String) : Prop :=
  ∃ a b : List Char, hay.data = a ++ needle.data ++ b

theorem str_data_append (a b : String) : (a ++ b).data = a.data ++ b.data := rfl

theorem substrOf_refl (s : String) : SubstrOf s s := ⟨[], [], by simp⟩

theorem substrOf_trans {a b c : String} (h1 : SubstrOf a b) (h2 : SubstrOf b c) :
    SubstrOf a c := by
  obtain ⟨p, q, hpq⟩ := h1
  obtain ⟨r, s, hrs⟩ := h2
  exact ⟨r ++ p, q ++ s, by simp [hrs, hpq]⟩

theorem listStartsWith_append (needle hay : List Char)
    (h : listStartsWith needle hay = true) : ∃ b, hay = needle ++ b := by
  induction needle generalizing hay with
  | nil => exact ⟨hay, rfl⟩
  | cons n ns ih =>
    cases hay with
    | nil => simp [listStartsWith] at h
    | cons x xs =>
      simp only [listStartsWith, Bool.and_eq_true, beq_iff_eq] at h
      obtain ⟨b, hb⟩ := ih xs h.2
      exact ⟨b, by simp [h.1, hb]⟩

theorem listHasSub_split (needle hay : List Char)
    (h : listHasSub needle hay = true) : ∃ a b, hay = a ++ needle ++ b := by
  induction hay with
  | nil =>
    simp only [listHasSub, List.isEmpty_iff] at h
    exact ⟨[], [], by simp [h]⟩
  | cons x xs ih =>
    simp only [listHasSub, Bool.or_eq_true] at h
    rcases h with h | h
    · obtain ⟨b, hb⟩ := listStartsWith_append _ _ h
      exact ⟨[], b, by simp [hb]⟩
    · obtain ⟨a, b, hab⟩ := ih h
      exact ⟨x :: a, b, by simp [hab]⟩

/-- A decided `strHasSub` yields the substring proposition; used to settle
concrete "the reason mentions ..." obligations by computation. -/
theorem substrOf_of_hasSub {hay needle : String}
    (h : strHasSub hay needle = true) : SubstrOf needle hay :=
  listHasSub_split _ _ h

/-- Python `"\n".join(lines)`. -/
def joinLines : List String → String
  | [] => ""
  | [l] => l
  | l :: l2 :: ls => l ++ "\n" ++ joinLines (l2 :: ls)

/-- Python `", ".join(parts)`. -/
def commaJoin : List String → String
  | [] => ""
  | [l] => l
  | l :: l2 :: ls => l ++ ", " ++ commaJoin (l2 :: ls)

theorem substrOf_mem_joinLines {a : String} {ls : List String} (h : a ∈ ls) :
    SubstrOf a (joinLines ls) := by
  induction ls with
  | nil => simp at h
  | cons x xs ih =>
    cases xs with
    | nil =>
      simp only [List.mem_singleton] at h
      exact h ▸ substrOf_refl x
    | cons y ys =>
      rcases List.mem_cons.mp h with h | h
      · exact ⟨[], ("\n" ++ joinLines (y :: ys)).data, by simp [joinLines, h]⟩
      · obtain ⟨p, q, hpq⟩ := ih h
        exact ⟨(x ++ "\n").data ++ p, q, by simp [joinLines, hpq]⟩

theorem substrOf_mem_commaJoin {a : String} {ls : List String} (h : a ∈ ls) :
    SubstrOf a (commaJoin ls) := by
  induction ls with
  | nil => simp at h
  | cons x xs ih =>
    cases xs with
    | nil =>
      simp only [List.mem_singleton] at h
      exact h ▸ substrOf_refl x
    | cons y ys =>
      rcases List.mem_cons.mp h with h | h
      · exact ⟨[], (", " ++ commaJoin (y :: ys)).data, by simp [commaJoin, h]⟩
      · obtain ⟨p, q, hpq⟩ := ih h
        exact ⟨(x ++ ", ").data ++ p, q, by simp [commaJoin, hpq]⟩

/-! ## Regex extraction (src/asmf/domain/expert.py)

`_TEMP_PATTERN = re.compile(r"(\d+)\s*(?:degrees?\s*)?(?:C|Celsius|°C)")` and
`_PCT_PATTERN = re.compile(r"(\d+)\s*(?:%|percent)")`, with `findall`'s
left-to-right, non-overlapping scan.  The patterns contain no constructs whose
backtracking can change the outcome (after the greedy `\d+` and `\s*` the
following alternatives start with non-digit, non-space characters), so a
direct scanner is an exact model; `\d`/`\s` are modelled over ASCII. -/

/-- Python `\s` whitespace class (ASCII part). -/
def isSpaceChar (c : Char) : Bool :=
  c == ' ' || c == '\t' || c == '\n' || c == '\r' || c.toNat == 11 || c.toNat == 12

/-- Numeric value of a digit run, as Python `int()` reads it. -/
def digitsToNat (ds : List Char) : Nat :=
  ds.foldl (fun n c => 10 * n + (c.toNat - 48)) 0

/-- The alternation `(?:C|Celsius|°C)`; `C` also covers the `Celsius` branch. -/
def matchTempUnit : List Char → Option (List Char)
  | 'C' :: rest => some rest
  | '°' :: 'C' :: rest => some rest
  | _ => none

/-- The word `degrees?`, preferring the `s` as the regex does. -/
def matchDegreesWord : List Char → Option (List Char)
  | 'd' :: 'e' :: 'g' :: 'r' :: 'e' :: 'e' :: rest =>
    match rest with
    | 's' :: rest2 => some rest2
    | _ => some rest
  | _ => none

/-- One attempted match of `_TEMP_PATTERN` at the head of `cs`, returning the
captured number and the remainder after the match. -/
def matchTempAt (cs : List Char) : Option (Nat × List Char) :=
  let ds := cs.takeWhile Char.isDigit
  if ds.isEmpty then none
  else
    let r2 := (cs.dropWhile Char.isDigit).dropWhile isSpaceChar
    let n := digitsToNat ds
    match matchDegreesWord r2 with
    | some r3 =>
      match matchTempUnit (r3.dropWhile isSpaceChar) with
      | some r4 => some (n, r4)
      | none => (matchTempUnit r2).map (fun r => (n, r))
    | none => (matchTempUnit r2).map (fun r => (n, r))

/-- The `findall` scan for temperatures.  Every successful match consumes at
least two characters, so fuel equal to the text length never runs out. -/
def scanTemps : Nat → List Char → List Nat
  | 0, _ => []
  | _ + 1, [] => []
  | fuel + 1, c :: cs =>
    match matchTempAt (c :: cs) with
    | some (n, rest) => n :: scanTemps fuel rest
    | none => scanTemps fuel cs

/-- DomainExpert._extract_temperatures (src/asmf/domain/expert.py:65-81); the
`int()` conversion of a digit run cannot fail. -/
def extract_temperatures (text : String) : List Nat :=
  scanTemps text.data.length text.data

/-- The alternation `(?:%|percent)`. -/
def matchPctUnit : List Char → Option (List Char)
  | '%' :: rest => some rest
  | 'p' :: 'e' :: 'r' :: 'c' :: 'e' :: 'n' :: 't' :: rest => some rest
  | _ => none

/-- One attempted match of `_PCT_PATTERN` at the head of `cs`. -/
def matchPctAt (cs : List Char) : Option (Nat × List Char) :=
  let ds := cs.takeWhile Char.isDigit
  if ds.isEmpty then none
  else
    let r2 := (cs.dropWhile Char.isDigit).dropWhile isSpaceChar
    (matchPctUnit r2).map (fun r => (digitsToNat ds, r))

/-- The `findall` scan for percentages. -/
def scanPcts : Nat → List Char → List Nat
  | 0, _ => []
  | _ + 1, [] => []
  | fuel + 1, c :: cs =>
    match matchPctAt (c :: cs) with
    | some (n, rest) => n :: scanPcts fuel rest
    | none => scanPcts fuel cs

/-- Percentage extraction inside DomainExpert.check_mass_balance
(src/asmf/domain/expert.py:222-228). -/
def extract_percentages (text : String) : List Nat :=
  scanPcts text.data.length text.data

/-! ## DomainExpert.check_mass_balance (src/asmf/domain/expert.py:212-240) -/

/-- Result dictionaries `{"valid": ..., "reason": ...}` returned by the domain
expert's validators. -/
structure ValidationResult where
  valid : Bool
  reason : String
deriving DecidableEq

/-- DomainExpert.check_mass_balance: sums every percentage found in the text
and flags sums above 105 (5% measurement-error margin). -/
def check_mass_balance (text : String) : ValidationResult :=
  let percentages := extract_percentages text
  if percentages.isEmpty then ⟨true, "No specific yields claimed"⟩
  else if 105 < percentages.sum then
    ⟨false, "Claimed yields sum to " ++ toString percentages.sum ++ "%, exceeding 100%"⟩
  else ⟨true, "Yield claims appear balanced"⟩

/-! ## Model selector (src/asmf/llm/model_selector.py) -/

/-- TaskType enum (src/asmf/llm/model_selector.py:27-32). -/
inductive TaskType
  | code_review
  | code_generation
  | document_analysis
  | general
deriving DecidableEq

/-- ModelRecommendation dataclass (src/asmf/llm/model_selector.py:35-43). -/
structure ModelRecommendation where
  name : String
  size_gb : ℚ
  quality : String
  speed : String
  description : String
  task_optimized : Bool := false
deriving DecidableEq

/-- ModelSelector.RECOMMENDATIONS (src/asmf/llm/model_selector.py:62-285): the
static table keyed by VRAM tier and task type.  Keys other than the three tier
strings do not occur (`_get_vram_tier` only produces these); the final `[]`
models the impossible `KeyError` branch. -/
def RECOMMENDATIONS (tier : String) (task : TaskType) : List ModelRecommendation :=
  if tier = "high" then
    match task with
    | .code_review =>
      [⟨"qwen2.5-coder:32b", 21, "Excellent", "2-5 tok/s",
        "Best for thorough code review with deep analysis", true⟩,
       ⟨"qwen2.5-coder:14b", 9, "Very Good", "5-10 tok/s",
        "Fast alternative for code review", true⟩]
    | .code_generation =>
      [⟨"qwen2.5-coder:32b", 21, "Excellent", "2-5 tok/s",
        "Best code generation with strong reasoning", true⟩,
       ⟨"qwen2.5-coder:14b", 9, "Very Good", "5-10 tok/s",
        "Balanced code generation", true⟩]
    | .document_analysis =>
      [⟨"qwen2.5:32b-q4", 20, "Excellent", "2-5 tok/s",
        "Best for complex document understanding", false⟩,
       ⟨"qwen2.5:14b-q4", 9, "Very Good", "5-10 tok/s",
        "Good document analysis with faster inference", false⟩]
    | .general =>
      [⟨"qwen2.5:32b-q4", 20, "Excellent", "2-5 tok/s",
        "Best general-purpose model", false⟩,
       ⟨"qwen2.5:14b-q4", 9, "Very Good", "5-10 tok/s",
        "Fast general-purpose alternative", false⟩]
  else if tier = "mid" then
    match task with
    | .code_review =>
      [⟨"qwen2.5-coder:14b", 9, "Very Good", "5-10 tok/s",
        "Best code review for mid-range GPUs", true⟩,
       ⟨"qwen2.5-coder:7b", 4.5, "Good", "10-15 tok/s",
        "Faster code review", true⟩]
    | .code_generation =>
      [⟨"qwen2.5-coder:14b", 9, "Very Good", "5-10 tok/s",
        "Good code generation", true⟩,
       ⟨"qwen2.5-coder:7b", 4.5, "Good", "10-15 tok/s",
        "Faster code generation", true⟩]
    | .document_analysis =>
      [⟨"qwen2.5:14b-q4", 9, "Very Good", "5-10 tok/s",
        "Good document understanding", false⟩,
       ⟨"llama3.2:3b", 2, "Good", "10-20 tok/s",
        "Fast basic analysis", false⟩]
    | .general =>
      [⟨"qwen2.5:14b-q4", 9, "Very Good", "5-10 tok/s",
        "Best balance for general use", false⟩,
       ⟨"mistral:7b-q4", 4, "Good", "8-15 tok/s",
        "Fast general-purpose", false⟩]
  else if tier = "low" then
    match task with
    | .code_review =>
      [⟨"qwen2.5-coder:7b", 4.5, "Good", "5-10 tok/s (GPU), 1-2 tok/s (CPU)",
        "Best code review for limited hardware", true⟩,
       ⟨"llama3.2:3b", 2, "Fair", "10-20 tok/s (GPU), 2-5 tok/s (CPU)",
        "Basic code review", false⟩]
    | .code_generation =>
      [⟨"qwen2.5-coder:7b", 4.5, "Good", "5-10 tok/s (GPU), 1-2 tok/s (CPU)",
        "Decent code generation", true⟩,
       ⟨"llama3.2:3b", 2, "Fair", "10-20 tok/s (GPU), 2-5 tok/s (CPU)",
        "Basic code generation", false⟩]
    | .document_analysis =>
      [⟨"llama3.2:3b", 2, "Good", "10-20 tok/s (GPU), 2-5 tok/s (CPU)",
        "Best for limited hardware", false⟩,
       ⟨"qwen2.5:7b-q4", 4, "Good", "5-10 tok/s (GPU), 1-3 tok/s (CPU)",
        "Better quality, slower", false⟩]
    | .general =>
      [⟨"llama3.2:3b", 2, "Good", "10-20 tok/s (GPU), 2-5 tok/s (CPU)",
        "Best for limited hardware", false⟩,
       ⟨"phi3:mini", 2, "Good", "10-15 tok/s",
        "Efficient Microsoft model", false⟩]
  else []

/-- ModelSelector._get_vram_tier (src/asmf/llm/model_selector.py:396-407). -/
def vram_tier (vram_gb : ℚ) : String :=
  if 12 ≤ vram_gb then "high"
  else if 8 ≤ vram_gb then "mid"
  else "low"

/-- ModelSelector.get_recommendations (src/asmf/llm/model_selector.py:409-422). -/
def get_recommendations (vram_gb : ℚ) (task : TaskType) : List ModelRecommendation :=
  RECOMMENDATIONS (vram_tier vram_gb) task

/-- Placeholder for the `recommendations[0]` indexing, which cannot fail since
every table entry is non-empty. -/
def dummyRec : ModelRecommendation := ⟨"", 0, "", "", "", false⟩

/-- ModelSelector.select_model (src/asmf/llm/model_selector.py:424-462).  The
live model list queried from Ollama (`_list_available_models`) is passed in as
`available`. -/
def select_model (vram_gb : ℚ) (task : TaskType) (check_availability : Bool)
    (available : List String) : String :=
  let recommendations := get_recommendations vram_gb task
  match check_availability with
  | false => (recommendations.headD dummyRec).name
  | true =>
    match recommendations.find? (fun rec => available.contains rec.name) with
    | some rec => rec.name
    | none => (recommendations.headD dummyRec).name

/-- First element of a filtered list equals the first match of `find?`: the
loop in `select_model` returns the first recommendation present locally. -/
theorem find?_eq_filter_head {α : Type} (p : α → Bool) (l : List α) :
    l.find? p = (l.filter p).head? := by
  induction l with
  | nil => rfl
  | cons x xs ih =>
    cases h : p x with
    | true =>
      rw [List.find?_cons_of_pos _ h, List.filter_cons_of_pos h, List.head?_cons]
    | false =>
      rw [List.find?_cons_of_neg _ (by simp [h]), List.filter_cons_of_neg (by simp [h]), ih]

/-- C7: vram tier thresholds and non-emptiness of the recommendation table. -/
theorem vram_tier_spec :
    (∀ v : ℚ, (vram_tier v = "high" ↔ 12 ≤ v)
      ∧ (vram_tier v = "mid" ↔ 8 ≤ v ∧ v < 12)
      ∧ (vram_tier v = "low" ↔ v < 8))
  ∧ (∀ tier ∈ ["high", "mid", "low"], ∀ task : TaskType,
      RECOMMENDATIONS tier task ≠ []) := by
  constructor
  · intro v
    unfold vram_tier
    rcases le_or_lt 12 v with h12 | h12
    · rw [if_pos h12]
      refine ⟨⟨fun _ => h12, fun _ => rfl⟩, ?_, ?_⟩
      · constructor
        · intro h; exact absurd h (by decide)
        · rintro ⟨-, hlt⟩; linarith
      · constructor
        · intro h; exact absurd h (by decide)
        · intro h; linarith
    · rw [if_neg (not_le.mpr h12)]
      rcases le_or_lt 8 v with h8 | h8
      · rw [if_pos h8]
        refine ⟨?_, ⟨fun _ => ⟨h8, h12⟩, fun _ => rfl⟩, ?_⟩
        · constructor
          · intro h; exact absurd h (by decide)
          · intro h; linarith
        · constructor
          · intro h; exact absurd h (by decide)
          · intro h; linarith
      · rw [if_neg (not_le.mpr h8)]
        refine ⟨?_, ?_, ⟨fun _ => h8, fun _ => rfl⟩⟩
        · constructor
          · intro h; exact absurd h (by decide)
          · intro h; linarith
        · constructor
          · intro h; exact absurd h (by decide)
          · rintro ⟨h8', -⟩; linarith
  · intro tier htier task
    fin_cases htier <;> cases task <;> decide

/-- C8: `select_model` without availability checking returns the top-ranked
recommendation; with checking it returns the first recommended model present
in the local list, falling back to the top recommendation when none is. -/
theorem select_model_spec :
    ∀ (vram_gb : ℚ) (task : TaskType) (available : List String),
      select_model vram_gb task false available
        = ((get_recommendations vram_gb task).headD dummyRec).name
    ∧ select_model vram_gb task true available
        = (((get_recommendations vram_gb task).filter
              (fun rec => available.contains rec.name)).headD
            ((get_recommendations vram_gb task).headD dummyRec)).name := by
  intro vram_gb task available
  constructor
  · rfl
  · have hsel : select_model vram_gb task true available
        = match (get_recommendations vram_gb task).find?
            (fun rec => available.contains rec.name) with
          | some rec => rec.name
          | none => ((get_recommendations vram_gb task).headD dummyRec).name := rfl
    rw [hsel, find?_eq_filter_head]
    cases h : (get_recommendations vram_gb task).filter
        (fun rec => available.contains rec.name) with
    | nil => simp [h]
    | cons x xs => simp [h]

/-! ## Domain expert (src/asmf/domain/expert.py, src/asmf/domain/config.py) -/

/-- Python `str.replace(pat, repl)`: left-to-right, non-overlapping.  Fuel is
the text length; a replacement consumes at least one character (the pattern is
non-empty wherever the source calls it), so the fuel never runs out. -/
def replaceGo (pat repl : List Char) : Nat → List Char → List Char
  | 0, cs => cs
  | _ + 1, [] => []
  | fuel + 1, c :: cs =>
    if !pat.isEmpty && listStartsWith pat (c :: cs) then
      repl ++ replaceGo pat repl fuel (List.drop pat.length (c :: cs))
    else c :: replaceGo pat repl fuel cs

/-- Python `s.replace(pat, repl)`. -/
def strReplace (s pat repl : String) : String :=
  ⟨replaceGo pat.data repl.data s.data.length s.data⟩

/-- Python `str.title()` (ASCII): uppercase an alphabetic character that does
not follow an alphabetic character, lowercase the rest. -/
def pyTitleGo : Bool → List Char → List Char
  | _, [] => []
  | prevAlpha, c :: cs =>
    (if c.isAlpha then (if prevAlpha then c.toLower else c.toUpper) else c)
      :: pyTitleGo c.isAlpha cs

/-- Python `s.title()`. -/
def pyTitle (s : String) : String := ⟨pyTitleGo false s.data⟩

/-- Python `min(list)` / `max(list)` over a non-empty list (the `[]` case is
unreachable wherever the source calls them). -/
def pyMin : List ℚ → ℚ
  | [] => 0
  | x :: xs => xs.foldl min x

/-- Python `max(list)` over a non-empty list. -/
def pyMax : List ℚ → ℚ
  | [] => 0
  | x :: xs => xs.foldl max x

theorem foldl_min_mem (xs : List ℚ) : ∀ x : ℚ, xs.foldl min x ∈ x :: xs := by
  induction xs with
  | nil => simp
  | cons y ys ih =>
    intro x
    have h := ih (min x y)
    rcases List.mem_cons.mp h with h | h
    · rcases min_choice x y with h' | h' <;> rw [List.foldl_cons, h, h'] <;> simp
    · simp [List.foldl_cons, List.mem_cons.mpr (Or.inr h)]

theorem foldl_max_mem (xs : List ℚ) : ∀ x : ℚ, xs.foldl max x ∈ x :: xs := by
  induction xs with
  | nil => simp
  | cons y ys ih =>
    intro x
    have h := ih (max x y)
    rcases List.mem_cons.mp h with h | h
    · rcases max_choice x y with h' | h' <;> rw [List.foldl_cons, h, h'] <;> simp
    · simp [List.foldl_cons, List.mem_cons.mpr (Or.inr h)]

theorem pyMin_mem {l : List ℚ} (h : l ≠ []) : pyMin l ∈ l := by
  cases l with
  | nil => exact absurd rfl h
  | cons x xs => exact foldl_min_mem xs x

theorem pyMax_mem {l : List ℚ} (h : l ≠ []) : pyMax l ∈ l := by
  cases l with
  | nil => exact absurd rfl h
  | cons x xs => exact foldl_max_mem xs x

/-- The domain configuration as DomainExpert sees it: a domain name and the
ordered `temperature_ranges` mapping process type to (min, max) in Celsius
(DomainConfig.get_temperature_ranges, src/asmf/domain/config.py:94-122).
YAML floats are `ℚ`. -/
structure DomainCfg where
  domain_name : String
  temperature_ranges : List (String × ℚ × ℚ)

/-- Minimums of all configured ranges (`all_mins` in the source). -/
def rangeMins (cfg : DomainCfg) : List ℚ := cfg.temperature_ranges.map fun r => r.2.1

/-- Maximums of all configured ranges (`all_maxs` in the source). -/
def rangeMaxs (cfg : DomainCfg) : List ℚ := cfg.temperature_ranges.map fun r => r.2.2

/-- DomainConfig.validate_temperature (src/asmf/domain/config.py:166-191).
With a non-empty range dictionary `all_mins`/`all_maxs` are non-empty, so the
source's final `return False` is unreachable. -/
def validate_temperature (cfg : DomainCfg) (temp_celsius : ℚ) : Bool :=
  if cfg.temperature_ranges.isEmpty then
    decide (-50 ≤ temp_celsius ∧ temp_celsius ≤ 2000)
  else if cfg.temperature_ranges.any
      (fun r => decide (r.2.1 ≤ temp_celsius) && decide (temp_celsius ≤ r.2.2)) then
    true
  else
    decide (pyMin (rangeMins cfg) - 100 ≤ temp_celsius
      ∧ temp_celsius ≤ pyMax (rangeMaxs cfg) + 200)

/-- Python `repr` of the float range endpoints as interpolated into messages;
the configurations exercised by the theorems only contain integral values,
rendered by Python with a trailing `.0`. -/
def floatStr (q : ℚ) : String :=
  if q.den = 1 then toString q.num ++ ".0"
  else toString q.num ++ "/" ++ toString q.den

/-- DomainExpert._check_temperature_in_range (src/asmf/domain/expert.py:83-105). -/
def check_temperature_in_range (cfg : DomainCfg) (temp : Nat) : Option String :=
  if validate_temperature cfg temp then none
  else if cfg.temperature_ranges.isEmpty then
    some ("Temperature " ++ toString temp ++ "°C may be unrealistic")
  else
    some ("Temperature " ++ toString temp ++ "°C outside typical "
      ++ cfg.domain_name ++ " range (~" ++ floatStr (pyMin (rangeMins cfg))
      ++ "-" ++ floatStr (pyMax (rangeMaxs cfg)) ++ "°C)")

/-- DomainExpert._check_temperature_process_match
(src/asmf/domain/expert.py:107-127): the first configured process type that is
named in the text and whose range excludes the temperature yields the error. -/
def check_temperature_process_match (cfg : DomainCfg) (temp : Nat) (text : String) :
    Option String :=
  let text_lower := strLower text
  cfg.temperature_ranges.findSome? (fun r =>
    let process_name := strReplace r.1 "_" " "
    if strHasSub text_lower process_name
        && !(decide (r.2.1 ≤ (temp : ℚ)) && decide ((temp : ℚ) ≤ r.2.2)) then
      some (pyTitle process_name ++ " temperature " ++ toString temp
        ++ "°C outside typical range " ++ floatStr r.2.1 ++ "-" ++ floatStr r.2.2 ++ "°C")
    else none)

/-- The `for temp in temperatures` loop of
DomainExpert.validate_temperature_claim: first failing check wins. -/
def validateTempsLoop (cfg : DomainCfg) (text : String) : List Nat → ValidationResult
  | [] => ⟨true, "Temperature claims are reasonable"⟩
  | t :: ts =>
    match check_temperature_in_range cfg t with
    | some e => ⟨false, e⟩
    | none =>
      match check_temperature_process_match cfg t text with
      | some e => ⟨false, e⟩
      | none => validateTempsLoop cfg text ts

/-- DomainExpert.validate_temperature_claim (src/asmf/domain/expert.py:129-155). -/
def validate_temperature_claim (cfg : DomainCfg) (text : String) : ValidationResult :=
  let temperatures := extract_temperatures text
  if temperatures.isEmpty then ⟨true, "No specific temperatures claimed"⟩
  else validateTempsLoop cfg text temperatures

theorem validateTempsLoop_valid (cfg : DomainCfg) (text : String) (ts : List Nat)
    (h : ∀ t ∈ ts, check_temperature_in_range cfg t = none
      ∧ check_temperature_process_match cfg t text = none) :
    validateTempsLoop cfg text ts = ⟨true, "Temperature claims are reasonable"⟩ := by
  induction ts with
  | nil => rfl
  | cons t ts ih =>
    obtain ⟨h1, h2⟩ := h t (List.mem_cons_self t ts)
    simp only [validateTempsLoop, h1, h2]
    exact ih (fun t' ht' => h t' (List.mem_cons.mpr (Or.inr ht')))

theorem validateTempsLoop_invalid (cfg : DomainCfg) (text : String) (ts : List Nat)
    (h : ∃ t ∈ ts, check_temperature_in_range cfg t ≠ none) :
    (validateTempsLoop cfg text ts).valid = false := by
  induction ts with
  | nil => simp at h
  | cons t ts ih =>
    cases hc : check_temperature_in_range cfg t with
    | some e => simp [validateTempsLoop, hc]
    | none =>
      cases hp : check_temperature_process_match cfg t text with
      | some e => simp [validateTempsLoop, hc, hp]
      | none =>
        simp only [validateTempsLoop, hc, hp]
        obtain ⟨t', ht', hbad⟩ := h
        rcases List.mem_cons.mp ht' with rfl | ht'
        · exact absurd hc hbad
        · exact ih ⟨t', ht', hbad⟩

/-- C4: percentages summing to at most 105 validate; a larger sum is invalid
with the exact sum stated in the reason; the "60%, 50%, 40%" example yields a
reason containing "150%". -/
theorem check_mass_balance_spec :
    (∀ text, (extract_percentages text).sum ≤ 105 →
      (check_mass_balance text).valid = true)
  ∧ (∀ text, 105 < (extract_percentages text).sum →
      (check_mass_balance text).valid = false
      ∧ SubstrOf (toString (extract_percentages text).sum ++ "%")
          (check_mass_balance text).reason)
  ∧ (check_mass_balance "Yields were 60%, 50%, 40% respectively").valid = false
  ∧ SubstrOf "150%" (check_mass_balance "Yields were 60%, 50%, 40% respectively").reason := by
  refine ⟨?_, ?_, by decide, substrOf_of_hasSub (by decide)⟩
  · intro text h
    cases he : (extract_percentages text).isEmpty with
    | true => simp [check_mass_balance, he]
    | false => simp [check_mass_balance, he, not_lt.mpr h]
  · intro text h
    have hne : (extract_percentages text).isEmpty = false := by
      cases he : (extract_percentages text).isEmpty with
      | true =>
        rw [List.isEmpty_iff.mp he] at h
        simp at h
      | false => rfl
    constructor
    · simp [check_mass_balance, hne, h]
    · have hr : (check_mass_balance text).reason
          = "Claimed yields sum to " ++ toString (extract_percentages text).sum
            ++ "%, exceeding 100%" := by
        simp [check_mass_balance, hne, h]
      rw [hr]
      refine ⟨"Claimed yields sum to ".data, ", exceeding 100%".data, ?_⟩
      have hpc : ("%, exceeding 100%" : String).data
          = '%' :: (", exceeding 100%" : String).data := rfl
      simp [str_data_append, hpc]

theorem isEmpty_false_of_ne_nil {α : Type} {l : List α} (h : l ≠ []) :
    l.isEmpty = false := by
  cases l with
  | nil => exact absurd rfl h
  | cons x xs => rfl

/-- Configuration of the claim's example: `pyrolysis=[300,600]` alone. -/
def pyroCfg : DomainCfg := ⟨"thermal_processing", [("pyrolysis", 300, 600)]⟩

/-- Configuration witnessing that an in-range temperature can still be flagged:
a second configured range contains 800 while the named process's does not. -/
def cexCfg : DomainCfg :=
  ⟨"thermal_processing", [("pyrolysis", 300, 600), ("gasification", 700, 900)]⟩

/-- C3 (amended): with a non-empty range configuration, a text validates when
every extracted temperature lies inside some configured range and inside the
range of every process type named in the text; a temperature more than 100°
below every minimum or more than 200° above every maximum makes the text
invalid; and the `pyrolysis=[300,600]` / "pyrolysis at 800°C" example is
invalid with a reason mentioning 800°C, 300 and 600. -/
theorem validate_temperature_claim_spec :
    (∀ (cfg : DomainCfg) (text : String),
      cfg.temperature_ranges ≠ [] →
      (∀ t ∈ extract_temperatures text,
        (∃ r ∈ cfg.temperature_ranges, r.2.1 ≤ (t : ℚ) ∧ (t : ℚ) ≤ r.2.2)
        ∧ (∀ r ∈ cfg.temperature_ranges,
            strHasSub (strLower text) (strReplace r.1 "_" " ") = true →
            r.2.1 ≤ (t : ℚ) ∧ (t : ℚ) ≤ r.2.2)) →
      (validate_temperature_claim cfg text).valid = true)
  ∧ (∀ (cfg : DomainCfg) (text : String) (t : Nat),
      cfg.temperature_ranges ≠ [] →
      t ∈ extract_temperatures text →
      ((∀ r ∈ cfg.temperature_ranges, (t : ℚ) < r.2.1 - 100)
        ∨ (∀ r ∈ cfg.temperature_ranges, r.2.2 + 200 < (t : ℚ))) →
      (validate_temperature_claim cfg text).valid = false)
  ∧ ((validate_temperature_claim pyroCfg "pyrolysis at 800°C").valid = false
    ∧ SubstrOf "800°C" (validate_temperature_claim pyroCfg "pyrolysis at 800°C").reason
    ∧ SubstrOf "300" (validate_temperature_claim pyroCfg "pyrolysis at 800°C").reason
    ∧ SubstrOf "600" (validate_temperature_claim pyroCfg "pyrolysis at 800°C").reason) := by
  have hpyro : validate_temperature_claim pyroCfg "pyrolysis at 800°C"
      = ⟨false, "Pyrolysis temperature 800°C outside typical range 300.0-600.0°C"⟩ := by
    have hv : validate_temperature pyroCfg ((800 : Nat) : ℚ) = true := by
      unfold validate_temperature
      rw [if_neg (by decide), if_neg (by decide),
        show pyMin (rangeMins pyroCfg) = 300 from rfl,
        show pyMax (rangeMaxs pyroCfg) = 600 from rfl]
      exact decide_eq_true (by norm_num)
    have hcir : check_temperature_in_range pyroCfg 800 = none := by
      unfold check_temperature_in_range
      rw [if_pos hv]
    have hcpm : check_temperature_process_match pyroCfg 800 "pyrolysis at 800°C"
        = some "Pyrolysis temperature 800°C outside typical range 300.0-600.0°C" := by
      decide
    have hext : extract_temperatures "pyrolysis at 800°C" = [800] := by decide
    unfold validate_temperature_claim
    rw [hext, if_neg (by decide)]
    simp only [validateTempsLoop, hcir, hcpm]
  refine ⟨?_, ?_, ?_⟩
  · intro cfg text hne h
    unfold validate_temperature_claim
    cases he : (extract_temperatures text).isEmpty with
    | true => rw [if_pos he]
    | false =>
      rw [if_neg (by simp [he])]
      rw [validateTempsLoop_valid]
      intro t ht
      obtain ⟨⟨r, hr, hr1, hr2⟩, hproc⟩ := h t ht
      constructor
      · have hval : validate_temperature cfg ((t : Nat) : ℚ) = true := by
          unfold validate_temperature
          rw [if_neg (by simp [isEmpty_false_of_ne_nil hne]),
            if_pos (List.any_eq_true.mpr ⟨r, hr, by simp [hr1, hr2]⟩)]
        unfold check_temperature_in_range
        rw [if_pos hval]
      · unfold check_temperature_process_match
        apply List.findSome?_eq_none_iff.mpr
        intro r' hr'
        cases hs : strHasSub (strLower text) (strReplace r'.1 "_" " ") with
        | false => simp [hs]
        | true =>
          obtain ⟨h1, h2⟩ := hproc r' hr' hs
          simp [hs, h1, h2]
  · intro cfg text t hne ht hbad
    have hEmpty := isEmpty_false_of_ne_nil hne
    have hval : validate_temperature cfg ((t : Nat) : ℚ) = false := by
      unfold validate_temperature
      rw [if_neg (by simp [hEmpty]), if_neg ?hany]
      case hany =>
        simp only [List.any_eq_true, Bool.and_eq_true, decide_eq_true_eq]
        push_neg
        intro r hrmem hle1
        rcases hbad with hb | hb
        · exact absurd hle1 (not_le.mpr (by have := hb r hrmem; linarith))
        · have := hb r hrmem; linarith
      rcases hbad with hb | hb
      · have hmins_ne : rangeMins cfg ≠ [] := by
          simp only [rangeMins, ne_eq, List.map_eq_nil_iff]
          exact hne
        obtain ⟨r, hrmem, hreq⟩ := List.mem_map.mp (pyMin_mem hmins_ne)
        apply decide_eq_false
        rintro ⟨hle, -⟩
        have hb' := hb r hrmem
        rw [hreq] at hb'
        have hle' : pyMin (List.map (fun r => r.2.1) cfg.temperature_ranges) - 100
            ≤ (t : ℚ) := hle
        linarith
      · have hmaxs_ne : rangeMaxs cfg ≠ [] := by
          simp only [rangeMaxs, ne_eq, List.map_eq_nil_iff]
          exact hne
        obtain ⟨r, hrmem, hreq⟩ := List.mem_map.mp (pyMax_mem hmaxs_ne)
        apply decide_eq_false
        rintro ⟨-, hle⟩
        have hb' := hb r hrmem
        rw [hreq] at hb'
        have hle' : (t : ℚ)
            ≤ pyMax (List.map (fun r => r.2.2) cfg.temperature_ranges) + 200 := hle
        linarith
    have hcir : check_temperature_in_range cfg t ≠ none := by
      unfold check_temperature_in_range
      rw [if_neg (by simp [hval])]
      split <;> simp
    unfold validate_temperature_claim
    rw [if_neg (by simp [isEmpty_false_of_ne_nil (List.ne_nil_of_mem ht)])]
    exact validateTempsLoop_invalid cfg text _ ⟨t, ht, hcir⟩
  · rw [hpyro]
    exact ⟨rfl, substrOf_of_hasSub (by decide), substrOf_of_hasSub (by decide),
      substrOf_of_hasSub (by decide)⟩

/-- C3 counterexample: with ranges `pyrolysis=[300,600]` and
`gasification=[700,900]`, the temperature 800 of "pyrolysis at 800°C" lies
inside a configured range, yet `validate_temperature_claim` reports invalid
(the process named in the text has a range excluding it). -/
theorem validate_temperature_claim_counterexample :
    (∃ r ∈ cexCfg.temperature_ranges,
      r.2.1 ≤ ((800 : Nat) : ℚ) ∧ ((800 : Nat) : ℚ) ≤ r.2.2)
    ∧ extract_temperatures "pyrolysis at 800°C" = [800]
    ∧ (validate_temperature_claim cexCfg "pyrolysis at 800°C").valid = false := by
  refine ⟨⟨("gasification", 700, 900), by decide, by norm_num, by norm_num⟩, by decide, ?_⟩
  have hv : validate_temperature cexCfg ((800 : Nat) : ℚ) = true := by
    unfold validate_temperature
    rw [if_neg (by decide), if_pos (by decide)]
  have hcir : check_temperature_in_range cexCfg 800 = none := by
    unfold check_temperature_in_range
    rw [if_pos hv]
  have hcpm : check_temperature_process_match cexCfg 800 "pyrolysis at 800°C"
      = some "Pyrolysis temperature 800°C outside typical range 300.0-600.0°C" := by
    decide
  have hext : extract_temperatures "pyrolysis at 800°C" = [800] := by decide
  unfold validate_temperature_claim
  rw [hext, if_neg (by decide)]
  simp only [validateTempsLoop, hcir, hcpm]

/-! ## Aggregator deduplication (src/aggregator/aggregator.py:122-155) -/

/-- A normalized result item as `_deduplicate` reads it: `item.get("link", "")`
etc.; absent keys are the empty string. -/
structure ResultItem where
  title : String := ""
  description : String := ""
  link : String := ""
deriving DecidableEq

/-- Aggregator._hash_content (src/aggregator/aggregator.py:151-155): the MD5
hex digest of `"title|description"`, with the digest `md5` a parameter. -/
def hash_content (md5 : String → String) (item : ResultItem) : String :=
  md5 (item.title ++ "|" ++ item.description)

/-- The loop of Aggregator._deduplicate (src/aggregator/aggregator.py:122-149)
with its two `seen` sets as accumulators; a skipped item's url and hash are not
recorded (the source only records them for kept items). -/
def dedupGo (md5 : String → String) :
    List ResultItem → List String → List String → List ResultItem
  | [], _, _ => []
  | item :: rest, seen_urls, seen_hashes =>
    let url := item.link
    if url != "" && seen_urls.contains url then
      dedupGo md5 rest seen_urls seen_hashes
    else
      let content_hash := hash_content md5 item
      if seen_hashes.contains content_hash then
        dedupGo md5 rest seen_urls seen_hashes
      else
        item :: dedupGo md5 rest (url :: seen_urls) (content_hash :: seen_hashes)

/-- Aggregator._deduplicate, starting from empty `seen` sets. -/
def deduplicate (md5 : String → String) (items : List ResultItem) : List ResultItem :=
  dedupGo md5 items [] []

theorem dedupGo_cons_keep (md5 : String → String) (item : ResultItem)
    (rest : List ResultItem) (su sh : List String)
    (h1 : ¬(item.link != "" && su.contains item.link) = true)
    (h2 : ¬sh.contains (hash_content md5 item) = true) :
    dedupGo md5 (item :: rest) su sh
      = item :: dedupGo md5 rest (item.link :: su) (hash_content md5 item :: sh) := by
  simp only [dedupGo]
  rw [if_neg h1, if_neg h2]

theorem dedupGo_sublist (md5 : String → String) :
    ∀ (items : List ResultItem) (su sh : List String),
      (dedupGo md5 items su sh).Sublist items := by
  intro items
  induction items with
  | nil => intro su sh; simp [dedupGo]
  | cons item rest ih =>
    intro su sh
    by_cases h1 : (item.link != "" && su.contains item.link) = true
    · simp only [dedupGo, h1, if_true]
      exact List.Sublist.cons item (ih su sh)
    · by_cases h2 : sh.contains (hash_content md5 item) = true
      · simp only [dedupGo, h1, if_false, h2, if_true]
        exact List.Sublist.cons item (ih su sh)
      · simp only [dedupGo, h1, if_false, h2]
        exact List.Sublist.cons₂ item (ih (item.link :: su) (hash_content md5 item :: sh))

theorem dedupGo_link_not_mem (md5 : String → String) (u : String) (hu : u ≠ "") :
    ∀ (items : List ResultItem) (su sh : List String), u ∈ su →
      ∀ x ∈ dedupGo md5 items su sh, x.link ≠ u := by
  intro items
  induction items with
  | nil => intro su sh _ x hx; simp [dedupGo] at hx
  | cons item rest ih =>
    intro su sh hsu x hx
    by_cases h1 : (item.link != "" && su.contains item.link) = true
    · simp only [dedupGo, h1, if_true] at hx
      exact ih su sh hsu x hx
    · by_cases h2 : sh.contains (hash_content md5 item) = true
      · simp only [dedupGo, h1, if_false, h2, if_true] at hx
        exact ih su sh hsu x hx
      · simp only [dedupGo, h1, if_false, h2] at hx
        rcases List.mem_cons.mp hx with rfl | hx
        · intro hlink
          apply h1
          rw [hlink]
          simp only [Bool.and_eq_true, bne_iff_ne, ne_eq]
          exact ⟨hu, List.elem_eq_true_of_mem hsu⟩
        · exact ih (item.link :: su) (hash_content md5 item :: sh)
            (List.mem_cons.mpr (Or.inr hsu)) x hx

theorem dedupGo_hash_not_mem (md5 : String → String) (h0 : String) :
    ∀ (items : List ResultItem) (su sh : List String), h0 ∈ sh →
      ∀ x ∈ dedupGo md5 items su sh, hash_content md5 x ≠ h0 := by
  intro items
  induction items with
  | nil => intro su sh _ x hx; simp [dedupGo] at hx
  | cons item rest ih =>
    intro su sh hsh x hx
    by_cases h1 : (item.link != "" && su.contains item.link) = true
    · simp only [dedupGo, h1, if_true] at hx
      exact ih su sh hsh x hx
    · by_cases h2 : sh.contains (hash_content md5 item) = true
      · simp only [dedupGo, h1, if_false, h2, if_true] at hx
        exact ih su sh hsh x hx
      · simp only [dedupGo, h1, if_false, h2] at hx
        rcases List.mem_cons.mp hx with rfl | hx
        · intro hh
          exact h2 (hh ▸ List.elem_eq_true_of_mem hsh)
        · exact ih (item.link :: su) (hash_content md5 item :: sh)
            (List.mem_cons.mpr (Or.inr hsh)) x hx

theorem dedupGo_countP_link (md5 : String → String) (u : String) (hu : u ≠ "") :
    ∀ (items : List ResultItem) (su sh : List String),
      (dedupGo md5 items su sh).countP (fun x => x.link == u) ≤ 1 := by
  intro items
  induction items with
  | nil => intro su sh; simp [dedupGo]
  | cons item rest ih =>
    intro su sh
    by_cases h1 : (item.link != "" && su.contains item.link) = true
    · simp only [dedupGo, h1, if_true]; exact ih su sh
    · by_cases h2 : sh.contains (hash_content md5 item) = true
      · simp only [dedupGo, h1, if_false, h2, if_true]; exact ih su sh
      · rw [dedupGo_cons_keep md5 item rest su sh h1 h2, List.countP_cons]
        by_cases heq : (item.link == u) = true
        · have hzero : (dedupGo md5 rest (item.link :: su)
              (hash_content md5 item :: sh)).countP (fun x => x.link == u) = 0 := by
            apply List.countP_eq_zero.mpr
            intro x hx
            have := dedupGo_link_not_mem md5 u hu rest (item.link :: su)
              (hash_content md5 item :: sh)
              (List.mem_cons.mpr (Or.inl (beq_iff_eq.mp heq).symm)) x hx
            simp [this]
          rw [hzero]
          simp [heq]
        · rw [if_neg heq]
          have := ih (item.link :: su) (hash_content md5 item :: sh)
          omega

theorem dedupGo_countP_hash (md5 : String → String) (h0 : String) :
    ∀ (items : List ResultItem) (su sh : List String),
      (dedupGo md5 items su sh).countP (fun x => hash_content md5 x == h0) ≤ 1 := by
  intro items
  induction items with
  | nil => intro su sh; simp [dedupGo]
  | cons item rest ih =>
    intro su sh
    by_cases h1 : (item.link != "" && su.contains item.link) = true
    · simp only [dedupGo, h1, if_true]; exact ih su sh
    · by_cases h2 : sh.contains (hash_content md5 item) = true
      · simp only [dedupGo, h1, if_false, h2, if_true]; exact ih su sh
      · rw [dedupGo_cons_keep md5 item rest su sh h1 h2, List.countP_cons]
        by_cases heq : (hash_content md5 item == h0) = true
        · have hzero : (dedupGo md5 rest (item.link :: su)
              (hash_content md5 item :: sh)).countP
                (fun x => hash_content md5 x == h0) = 0 := by
            apply List.countP_eq_zero.mpr
            intro x hx
            have := dedupGo_hash_not_mem md5 h0 rest (item.link :: su)
              (hash_content md5 item :: sh)
              (List.mem_cons.mpr (Or.inl (beq_iff_eq.mp heq).symm)) x hx
            simp [this]
          rw [hzero]
          simp [heq]
        · rw [if_neg heq]
          have := ih (item.link :: su) (hash_content md5 item :: sh)
          omega

/-- C2 (amended): deduplication keeps at most one item with any given
non-empty link, at most one item with any given title+description pair
(detected via the MD5 hash of "title|description"), and surviving items keep
their original relative order.  The survivor of a duplicate pair is the first
member not already removed by the other rule; this holds for every digest
function, in particular MD5. -/
theorem deduplicate_spec :
    ∀ (md5 : String → String) (items : List ResultItem),
      (deduplicate md5 items).Sublist items
    ∧ (∀ u : String, u ≠ "" →
        (deduplicate md5 items).countP (fun x => x.link == u) ≤ 1)
    ∧ (∀ t d : String,
        (deduplicate md5 items).countP
          (fun x => x.title == t && x.description == d) ≤ 1) := by
  intro md5 items
  refine ⟨dedupGo_sublist md5 items [] [], fun u hu => dedupGo_countP_link md5 u hu items [] [], ?_⟩
  intro t d
  calc (deduplicate md5 items).countP (fun x => x.title == t && x.description == d)
      ≤ (deduplicate md5 items).countP
          (fun x => hash_content md5 x == md5 (t ++ "|" ++ d)) := by
        apply List.countP_mono_left
        intro x _ hx
        simp only [Bool.and_eq_true, beq_iff_eq] at hx
        simp [hash_content, hx.1, hx.2]
    _ ≤ 1 := dedupGo_countP_hash md5 (md5 (t ++ "|" ++ d)) items [] []

/-- Identity stand-in for the MD5 digest in the concrete counterexample; only
the digest's congruence (equal inputs give equal digests) is exercised, which
holds for MD5 as well. -/
def md5Id : String → String := fun s => s

/-- C2 counterexample: the later of two items sharing a link (resp. sharing
title and description) can be the one that survives, when the earlier one was
itself removed as a duplicate under the other criterion. -/
theorem deduplicate_counterexample :
    (deduplicate md5Id [⟨"t", "d", "L1"⟩, ⟨"t", "d", "L2"⟩, ⟨"e", "f", "L2"⟩]
        = [⟨"t", "d", "L1"⟩, ⟨"e", "f", "L2"⟩]
      ∧ (⟨"t", "d", "L2"⟩ : ResultItem).link = (⟨"e", "f", "L2"⟩ : ResultItem).link
      ∧ (⟨"t", "d", "L2"⟩ : ResultItem).link ≠ ""
      ∧ (⟨"t", "d", "L2"⟩ : ResultItem)
          ∉ deduplicate md5Id [⟨"t", "d", "L1"⟩, ⟨"t", "d", "L2"⟩, ⟨"e", "f", "L2"⟩]
      ∧ (⟨"e", "f", "L2"⟩ : ResultItem)
          ∈ deduplicate md5Id [⟨"t", "d", "L1"⟩, ⟨"t", "d", "L2"⟩, ⟨"e", "f", "L2"⟩])
  ∧ (deduplicate md5Id [⟨"t", "d", "L"⟩, ⟨"u", "v", "L"⟩, ⟨"u", "v", "M"⟩]
        = [⟨"t", "d", "L"⟩, ⟨"u", "v", "M"⟩]
      ∧ (⟨"u", "v", "L"⟩ : ResultItem).title = (⟨"u", "v", "M"⟩ : ResultItem).title
      ∧ (⟨"u", "v", "L"⟩ : ResultItem).description
          = (⟨"u", "v", "M"⟩ : ResultItem).description
      ∧ (⟨"u", "v", "L"⟩ : ResultItem)
          ∉ deduplicate md5Id [⟨"t", "d", "L"⟩, ⟨"u", "v", "L"⟩, ⟨"u", "v", "M"⟩]
      ∧ (⟨"u", "v", "M"⟩ : ResultItem)
          ∈ deduplicate md5Id [⟨"t", "d", "L"⟩, ⟨"u", "v", "L"⟩, ⟨"u", "v", "M"⟩]) := by
  decide

/-! ## Tracker (src/tracker/tracker.py) -/

/-- The caller-supplied part of a tracked item (`item` argument of `track`);
absent keys read as the empty string via `.get(..., "")`. -/
structure TrackItem where
  title : String := ""
  description : String := ""
  link : String := ""
deriving DecidableEq

/-- One history record; `track` writes `{timestamp, action, status}`,
`update_status` writes `{timestamp, action, old_status, new_status[, note]}`.
Unused fields stay at their defaults. -/
structure HistoryEntry where
  timestamp : String
  action : String
  status : String := ""
  old_status : String := ""
  new_status : String := ""
  note : Option String := none
deriving DecidableEq

/-- A tracked item as stored: the original payload plus id, status, timestamps
and history (src/tracker/tracker.py:89-100). -/
structure TrackedItem where
  base : TrackItem
  id : String
  status : String
  tracked_at : String
  updated_at : String
  history : List HistoryEntry
deriving DecidableEq

/-- Tracker state: `self.items` plus the JSON file contents (`stored`), which
`_save` overwrites with `self.items` on every successful mutation. -/
structure TrackerState where
  items : List TrackedItem
  stored : List TrackedItem
deriving DecidableEq

/-- Tracker.VALID_STATUSES (src/tracker/tracker.py:34-35). -/
def VALID_STATUSES : List String := ["new", "in_progress", "completed", "rejected"]

/-- Tracker._generate_id (src/tracker/tracker.py:222-231): first 16 hex digits
of the MD5 of the link, falling back to `title|description` when the link is
empty. -/
def generate_id (md5 : String → String) (item : TrackItem) : String :=
  if item.link != "" then ⟨(md5 item.link).data.take 16⟩
  else ⟨(md5 (item.title ++ "|" ++ item.description)).data.take 16⟩

/-- Tracker.get_by_id (src/tracker/tracker.py:144-149). -/
def get_by_id (s : TrackerState) (item_id : String) : Option TrackedItem :=
  s.items.find? (fun item => item.id == item_id)

/-- Tracker.track (src/tracker/tracker.py:68-106).  `datetime.now()` is the
`now` parameter; raising `ValueError` is the `.error` outcome, which leaves
the state untouched. -/
def track (md5 : String → String) (now : String) (s : TrackerState)
    (item : TrackItem) (status : String) :
    Except String (Option String) × TrackerState :=
  if !VALID_STATUSES.contains status then
    (.error ("Invalid status: " ++ status), s)
  else
    let item_id := generate_id md5 item
    if (get_by_id s item_id).isSome then (.ok none, s)
    else
      let tracked_item : TrackedItem :=
        ⟨item, item_id, status, now, now, [⟨now, "tracked", status, "", "", none⟩]⟩
      let items := s.items ++ [tracked_item]
      (.ok (some item_id), ⟨items, items⟩)

/-- In-place mutation of the first item with the given id, as `update_status`
mutates the object returned by `get_by_id`. -/
def updateFirst (item_id new_status now : String) (note : Option String) :
    List TrackedItem → List TrackedItem
  | [] => []
  | item :: rest =>
    if item.id == item_id then
      { item with
        status := new_status
        updated_at := now
        history := item.history
          ++ [⟨now, "status_change", "", item.status, new_status, note⟩] } :: rest
    else item :: updateFirst item_id new_status now note rest

/-- Tracker.update_status (src/tracker/tracker.py:108-142). -/
def update_status (now : String) (s : TrackerState) (item_id new_status : String)
    (note : Option String) : Except String Unit × TrackerState :=
  if !VALID_STATUSES.contains new_status then
    (.error ("Invalid status: " ++ new_status), s)
  else
    match get_by_id s item_id with
    | none => (.error ("Item not found: " ++ item_id), s)
    | some _ =>
      let items := updateFirst item_id new_status now note s.items
      (.ok (), ⟨items, items⟩)

/-- C10: invalid-status and unknown-id calls raise ValueError before any
mutation: the in-memory list and the persisted state are returned exactly as
they were. -/
theorem tracker_validation_spec :
    (∀ (md5 : String → String) (now : String) (s : TrackerState)
        (item : TrackItem) (status : String),
      status ∉ VALID_STATUSES →
      track md5 now s item status = (.error ("Invalid status: " ++ status), s))
  ∧ (∀ (now : String) (s : TrackerState) (item_id new_status : String)
        (note : Option String),
      new_status ∉ VALID_STATUSES →
      update_status now s item_id new_status note
        = (.error ("Invalid status: " ++ new_status), s))
  ∧ (∀ (now : String) (s : TrackerState) (item_id new_status : String)
        (note : Option String),
      new_status ∈ VALID_STATUSES →
      get_by_id s item_id = none →
      update_status now s item_id new_status note
        = (.error ("Item not found: " ++ item_id), s)) := by
  refine ⟨?_, ?_, ?_⟩
  · intro md5 now s item status h
    have hc : VALID_STATUSES.contains status = false := by
      cases hc : VALID_STATUSES.contains status with
      | true => exact absurd (List.mem_of_elem_eq_true hc) h
      | false => rfl
    simp only [track]
    rw [if_pos (by rw [hc]; rfl)]
  · intro now s item_id new_status note h
    have hc : VALID_STATUSES.contains new_status = false := by
      cases hc : VALID_STATUSES.contains new_status with
      | true => exact absurd (List.mem_of_elem_eq_true hc) h
      | false => rfl
    simp only [update_status]
    rw [if_pos (by rw [hc]; rfl)]
  · intro now s item_id new_status note h hid
    have hc : VALID_STATUSES.contains new_status = true := List.elem_eq_true_of_mem h
    simp only [update_status]
    rw [if_neg (by rw [hc]; simp), hid]

/-- C5 (amended): from a state not already containing the item's id, `track`
returns the content-hash id; a second `track` with the same non-empty link
returns none rather than raising; `update_status` with a valid status and an
id present in no tracked item raises the not-found ValueError. -/
theorem track_twice_spec :
    (∀ (md5 : String → String) (now now2 : String) (s : TrackerState)
        (item item2 : TrackItem) (status status2 : String),
      status ∈ VALID_STATUSES → status2 ∈ VALID_STATUSES →
      get_by_id s (generate_id md5 item) = none →
      item.link ≠ "" → item2.link = item.link →
      (track md5 now s item status).1 = .ok (some (generate_id md5 item))
      ∧ (track md5 now2 (track md5 now s item status).2 item2 status2).1 = .ok none)
  ∧ (∀ (now : String) (s : TrackerState) (item_id new_status : String)
        (note : Option String),
      new_status ∈ VALID_STATUSES →
      get_by_id s item_id = none →
      update_status now s item_id new_status note
        = (.error ("Item not found: " ++ item_id), s)) := by
  constructor
  · intro md5 now now2 s item item2 status status2 hst hst2 hid hlink hlink2
    have hc : VALID_STATUSES.contains status = true := List.elem_eq_true_of_mem hst
    have hc2 : VALID_STATUSES.contains status2 = true := List.elem_eq_true_of_mem hst2
    have hid2 : generate_id md5 item2 = generate_id md5 item := by
      simp only [generate_id, hlink2]
      rw [if_pos (bne_iff_ne.mpr hlink), if_pos (bne_iff_ne.mpr hlink)]
    have htrack : track md5 now s item status
        = (.ok (some (generate_id md5 item)),
            ⟨s.items ++ [⟨item, generate_id md5 item, status, now, now,
              [⟨now, "tracked", status, "", "", none⟩]⟩],
             s.items ++ [⟨item, generate_id md5 item, status, now, now,
              [⟨now, "tracked", status, "", "", none⟩]⟩]⟩) := by
      simp only [track]
      rw [if_neg (by rw [hc]; simp), if_neg (by rw [hid]; simp)]
    refine ⟨by rw [htrack], ?_⟩
    rw [htrack]
    have hfind : get_by_id
        ⟨s.items ++ [⟨item, generate_id md5 item, status, now, now,
          [⟨now, "tracked", status, "", "", none⟩]⟩],
         s.items ++ [⟨item, generate_id md5 item, status, now, now,
          [⟨now, "tracked", status, "", "", none⟩]⟩]⟩
        (generate_id md5 item2)
        = some ⟨item, generate_id md5 item, status, now, now,
            [⟨now, "tracked", status, "", "", none⟩]⟩ := by
      unfold get_by_id at hid ⊢
      rw [hid2, List.find?_append, hid]
      simp
    simp only [track]
    rw [if_neg (by rw [hc2]; simp), if_pos (by rw [hfind]; rfl)]
  · intro now s item_id new_status note h hid
    have hc : VALID_STATUSES.contains new_status = true := List.elem_eq_true_of_mem h
    simp only [update_status]
    rw [if_neg (by rw [hc]; simp), hid]

/-- Identity stand-in for MD5 in the tracker counterexample; only determinism
of the digest is relied upon. -/
def md5IdT : String → String := fun s => s

/-- C5 counterexample: on a tracker state that already contains the item, the
first `track` call returns none instead of an item id, so the claim's "for
every tracker state" quantification fails; the second conjunct shows the
id returned from the empty state. -/
theorem track_twice_counterexample :
    (track md5IdT "t1" ⟨[], []⟩ ⟨"t", "d", "http://x"⟩ "new").1
        = .ok (some "http://x")
    ∧ (track md5IdT "t2" (track md5IdT "t1" ⟨[], []⟩ ⟨"t", "d", "http://x"⟩ "new").2
        ⟨"t", "d", "http://x"⟩ "new").1 = .ok none := by
  constructor
  · rfl
  · rfl

/-! ## Webhook server (src/webhook_server.py) -/

/-- Python `s.split(sep)` with a non-empty separator: left-to-right,
non-overlapping.  Fuel is the text length plus one; each step consumes at
least one character. -/
def pySplitGo (sep : List Char) : Nat → List Char → List Char → List (List Char)
  | 0, acc, cs => [acc.reverse ++ cs]
  | fuel + 1, acc, cs =>
    if !sep.isEmpty && listStartsWith sep cs then
      acc.reverse :: pySplitGo sep fuel [] (cs.drop sep.length)
    else
      match cs with
      | [] => [acc.reverse]
      | c :: cs2 => pySplitGo sep fuel (c :: acc) cs2

/-- Python `s.split(sep)`. -/
def pySplit (s sep : String) : List String :=
  (pySplitGo sep.data (s.data.length + 1) [] s.data).map (fun l => ⟨l⟩)

/-- The pull_request payload fields the handler reads (`number`, `draft`);
`payload.get("pull_request", {})` with missing keys defaulting. -/
structure PullRequestData where
  number : Nat
  draft : Bool
deriving DecidableEq

/-- One POST to /webhook as the handler sees it: raw body, the two headers,
and the parsed JSON payload fields the control flow reads.  The Copilot
author check (is_copilot_authored) is computed but only logged, and the
PR comments posted on failure are side effects outside the response value. -/
structure WebhookRequest where
  body : String
  signature : Option String
  event : Option String
  action : String
  pull_request : PullRequestData
  repo_full_name : String

/-- verify_webhook_signature (src/webhook_server.py:43-65).  `GITHUB_WEBHOOK_SECRET`
is the `secret` parameter; HMAC-SHA256 hex digest is the `hmacHex` parameter.
A missing or empty header is falsy; a header that does not split into exactly
two parts on "=" makes the tuple unpacking raise (the `.error` outcome). -/
def verify_webhook_signature (hmacHex : String → String → String)
    (secret : Option String) (payload_body : String)
    (signature_header : Option String) : Except Unit Bool :=
  match secret with
  | none => .ok true
  | some sec =>
    match signature_header with
    | none => .ok false
    | some s =>
      if s = "" then .ok false
      else
        match pySplit s "=" with
        | [hash_algorithm, github_signature] =>
          if hash_algorithm != "sha256" then .ok false
          else .ok (hmacHex sec payload_body == github_signature)
        | _ => .error ()

/-- The JSON body + status pairs the handler returns. -/
inductive RespBody
  | errorMsg (s : String)
  | message (s : String)
  | reviewDone (msg : String) (pr_number : Nat)
  | internalError
deriving DecidableEq

/-- webhook_handler (src/webhook_server.py:168-235).  The outcome of
`review_pr_with_ollama` is `review_result` (None on failure; the handler also
treats an empty string as falsy) and of `post_pr_comment` is `post_ok`.  An
exception escaping `verify_webhook_signature` surfaces as Flask's generic 500. -/
def webhook_handler (hmacHex : String → String → String) (secret : Option String)
    (req : WebhookRequest) (review_result : Option String) (post_ok : Bool) :
    RespBody × Nat :=
  match verify_webhook_signature hmacHex secret req.body req.signature with
  | .error _ => (.internalError, 500)
  | .ok false => (.errorMsg "Invalid signature", 403)
  | .ok true =>
    if req.event != some "pull_request" then (.message "Event type not handled", 200)
    else if !(["ready_for_review", "opened", "synchronize"].contains req.action) then
      (.message ("Action " ++ req.action ++ " not handled"), 200)
    else if req.pull_request.draft then (.message "Draft PR - skipping review", 200)
    else
      match review_result with
      | none => (.errorMsg "Review failed", 500)
      | some r =>
        if r = "" then (.errorMsg "Review failed", 500)
        else if post_ok then
          (.reviewDone "Review completed and posted" req.pull_request.number, 200)
        else (.errorMsg "Failed to post review comment", 500)

/-- C6: with a configured secret and a pull_request event whose action is
handled, a wrong HMAC signature yields 403; a draft PR yields 200 with the
skip message; a successful review that posts yields 200 echoing the PR
number. -/
theorem webhook_handler_spec
    (hmacHex : String → String → String) (secret : Option String)
    (req : WebhookRequest) (review_result : Option String) (post_ok : Bool)
    (sec : String)
    (hsec : secret = some sec)
    (hevent : req.event = some "pull_request")
    (haction : req.action ∈ ["opened", "synchronize", "ready_for_review"]) :
    (∀ g : String, req.signature = some ("sha256=" ++ g) →
      pySplit ("sha256=" ++ g) "=" = ["sha256", g] →
      g ≠ hmacHex sec req.body →
      webhook_handler hmacHex secret req review_result post_ok
        = (.errorMsg "Invalid signature", 403))
  ∧ (verify_webhook_signature hmacHex secret req.body req.signature = .ok true →
      req.pull_request.draft = true →
      webhook_handler hmacHex secret req review_result post_ok
        = (.message "Draft PR - skipping review", 200))
  ∧ (∀ r : String,
      verify_webhook_signature hmacHex secret req.body req.signature = .ok true →
      req.pull_request.draft = false →
      review_result = some r → r ≠ "" → post_ok = true →
      webhook_handler hmacHex secret req review_result post_ok
        = (.reviewDone "Review completed and posted" req.pull_request.number, 200)) := by
  have hact : (["ready_for_review", "opened", "synchronize"].contains req.action) = true := by
    have h3 : req.action = "opened" ∨ req.action = "synchronize"
        ∨ req.action = "ready_for_review" := by simpa using haction
    rcases h3 with h | h | h <;> rw [h] <;> rfl
  have hevne : (req.event != some "pull_request") = false := by
    rw [hevent]; rfl
  refine ⟨?_, ?_, ?_⟩
  · intro g hsig hsplit hneq
    have hsne : ("sha256=" ++ g) ≠ "" := by
      intro he
      have hd := congrArg String.data he
      rw [str_data_append] at hd
      simp at hd
    have hver : verify_webhook_signature hmacHex secret req.body req.signature
        = .ok false := by
      rw [hsec, hsig]
      simp only [verify_webhook_signature]
      rw [if_neg hsne, hsplit]
      show (if (("sha256" : String) != "sha256") = true then (Except.ok false : Except Unit Bool)
          else .ok (hmacHex sec req.body == g)) = .ok false
      rw [if_neg (by decide), beq_eq_false_iff_ne.mpr (Ne.symm hneq)]
    simp only [webhook_handler, hver]
  · intro hver hdraft
    simp only [webhook_handler, hver]
    rw [if_neg (by rw [hevne]; simp), if_neg (by rw [hact]; simp), if_pos hdraft]
  · intro r hver hdraft hrev hrne hpost
    simp only [webhook_handler, hver, hrev]
    rw [if_neg (by rw [hevne]; simp), if_neg (by rw [hact]; simp), hdraft]
    simp only [Bool.false_eq_true, if_false]
    rw [if_neg hrne, if_pos hpost]

/-- Witness instantiation of C6 at a concrete request, digest function and
secret, discharging each hypothesis. -/
theorem webhook_handler_spec_witness :
    (∀ g : String,
      (some ("sha256=" ++ "deadbeef") : Option String) = some ("sha256=" ++ g) →
      pySplit ("sha256=" ++ g) "=" = ["sha256", g] →
      g ≠ (fun k m => k ++ m) "sec" "body" →
      webhook_handler (fun k m => k ++ m) (some "sec")
        ⟨"body", some ("sha256=" ++ "deadbeef"), some "pull_request", "opened", ⟨7, false⟩, "o/r"⟩
        (some "LGTM") true
        = (.errorMsg "Invalid signature", 403))
  ∧ (verify_webhook_signature (fun k m => k ++ m) (some "sec") "body"
        (some ("sha256=" ++ "deadbeef")) = .ok true →
      false = true →
      webhook_handler (fun k m => k ++ m) (some "sec")
        ⟨"body", some ("sha256=" ++ "deadbeef"), some "pull_request", "opened", ⟨7, false⟩, "o/r"⟩
        (some "LGTM") true
        = (.message "Draft PR - skipping review", 200))
  ∧ (∀ r : String,
      verify_webhook_signature (fun k m => k ++ m) (some "sec") "body"
        (some ("sha256=" ++ "deadbeef")) = .ok true →
      false = false →
      (some "LGTM" : Option String) = some r → r ≠ "" → true = true →
      webhook_handler (fun k m => k ++ m) (some "sec")
        ⟨"body", some ("sha256=" ++ "deadbeef"), some "pull_request", "opened", ⟨7, false⟩, "o/r"⟩
        (some "LGTM") true
        = (.reviewDone "Review completed and posted" 7, 200)) :=
  webhook_handler_spec (fun k m => k ++ m) (some "sec")
    ⟨"body", some ("sha256=" ++ "deadbeef"), some "pull_request", "opened", ⟨7, false⟩, "o/r"⟩
    (some "LGTM") true "sec" rfl rfl (by simp)

/-- C9: with no configured webhook secret, signature verification accepts
every body and header, the handler's outcome does not depend on the signature
header at all, and no request is rejected with 403. -/
theorem webhook_no_secret_spec :
    (∀ (hmacHex : String → String → String) (body : String) (sig : Option String),
      verify_webhook_signature hmacHex none body sig = .ok true)
  ∧ (∀ (hmacHex : String → String → String) (req : WebhookRequest)
      (review_result : Option String) (post_ok : Bool) (sig2 : Option String),
      webhook_handler hmacHex none req review_result post_ok
        = webhook_handler hmacHex none { req with signature := sig2 }
            review_result post_ok)
  ∧ (∀ (hmacHex : String → String → String) (req : WebhookRequest)
      (review_result : Option String) (post_ok : Bool),
      (webhook_handler hmacHex none req review_result post_ok).2 ≠ 403) := by
  refine ⟨fun _ _ _ => rfl, fun _ _ _ _ _ => rfl, ?_⟩
  intro hmacHex req review_result post_ok
  simp only [webhook_handler, verify_webhook_signature]
  split <;> try simp
  split <;> try simp
  split <;> try simp
  rcases review_result with - | r
  · simp
  · simp only []
    split <;> try simp
    split <;> simp

/-! ## Provider factory (src/asmf/providers/provider_factory.py) -/

/-- Outcome of constructing one provider and asking `is_available()`:
`.error msg` models the constructor raising, `.ok b` models an instance whose
`is_available()` returns `b`. -/
def isAvailOk : Except String Bool → Bool
  | .ok true => true
  | .ok false => false
  | .error _ => false

/-- The entry recorded in `errors` for a failed candidate: the stringified
exception, or the "<name> instantiated but not available" message
(src/asmf/providers/provider_factory.py:65-71). -/
def failure_reason (p : String × Except String Bool) : String :=
  match p.2 with
  | .error e => e
  | .ok _ => p.1 ++ " instantiated but not available"

/-- Dictionary lookup `errors[name]` over the insertion-ordered pairs. -/
def lookupErr (name : String) (errors : List (String × String)) : Option String :=
  (errors.find? (fun e => e.1 == name)).map (fun e => e.2)

/-- The Ollama setup-instruction block of the aggregated error
(src/asmf/providers/provider_factory.py:81-89), present when
"OllamaProvider" is in `errors`. -/
def ollamaBlock (errors : List (String × String)) : List String :=
  match lookupErr "OllamaProvider" errors with
  | some e =>
    ["",
     "For Ollama (local, free, private):",
     "  1. Install: https://ollama.ai/download",
     "  2. Pull model: ollama pull qwen2.5:14b-q4",
     "  3. Or run: python scripts/setup_ollama.py",
     "  Error: " ++ e]
  | none => []

/-- The Gemini setup-instruction block
(src/asmf/providers/provider_factory.py:91-99). -/
def geminiBlock (errors : List (String × String)) : List String :=
  match lookupErr "GeminiProvider" errors with
  | some e =>
    ["",
     "For Gemini (cloud, requires API key):",
     "  1. Get API key: https://makersuite.google.com/app/apikey",
     "  2. Set: export GEMINI_API_KEY=your-key",
     "  3. Or add to .env: GEMINI_API_KEY=your-key",
     "  Error: " ++ e]
  | none => []

/-- The aggregated RuntimeError message
(src/asmf/providers/provider_factory.py:74-106). -/
def buildErrorMessage (tried : List String) (errors : List (String × String)) : String :=
  joinLines
    (["No AI providers available. Tried: " ++ commaJoin tried,
      "",
      "Setup Instructions:"]
     ++ ollamaBlock errors ++ geminiBlock errors
     ++ ["", "See docs/OLLAMA_SETUP.md for detailed setup guide."])

/-- The `for provider_cls in provider_classes` loop
(src/asmf/providers/provider_factory.py:54-72) with the `tried_providers` and
`errors` accumulators. -/
def tryProviders :
    List (String × Except String Bool) → List String → List (String × String) →
    Except String String
  | [], tried, errors => .error (buildErrorMessage tried errors)
  | (name, behavior) :: rest, tried, errors =>
    let tried2 := tried ++ [name]
    match behavior with
    | .ok true => .ok name
    | .ok false =>
      tryProviders rest tried2 (errors ++ [(name, name ++ " instantiated but not available")])
    | .error e => tryProviders rest tried2 (errors ++ [(name, e)])

/-- The candidate order (src/asmf/providers/provider_factory.py:44-49):
Gemini then Ollama by default, reversed when `prefer_local` is set. -/
def providerOrder (prefer_local : Bool) (gemini ollama : Except String Bool) :
    List (String × Except String Bool) :=
  if prefer_local then [("OllamaProvider", ollama), ("GeminiProvider", gemini)]
  else [("GeminiProvider", gemini), ("OllamaProvider", ollama)]

/-- AIProviderFactory.create_provider
(src/asmf/providers/provider_factory.py:17-106); the returned provider is
identified by its class name. -/
def create_provider (prefer_local : Bool) (gemini ollama : Except String Bool) :
    Except String String :=
  tryProviders (providerOrder prefer_local gemini ollama) [] []

/-- The first candidate whose `is_available()` is true. -/
def firstAvailable (l : List (String × Except String Bool)) : Option String :=
  (l.find? (fun p => isAvailOk p.2)).map (fun p => p.1)

theorem substr_buildErrorMessage_tried {n : String} {tried : List String}
    {errors : List (String × String)} (h : n ∈ tried) :
    SubstrOf n (buildErrorMessage tried errors) := by
  refine substrOf_trans (substrOf_mem_commaJoin h) ?_
  refine substrOf_trans
    (⟨"No AI providers available. Tried: ".data, [],
      by simp [str_data_append]⟩ :
      SubstrOf (commaJoin tried)
        ("No AI providers available. Tried: " ++ commaJoin tried)) ?_
  exact substrOf_mem_joinLines (by simp [buildErrorMessage])

theorem substr_buildErrorMessage_ollama {e : String} {tried : List String}
    {errors : List (String × String)} (h : lookupErr "OllamaProvider" errors = some e) :
    SubstrOf e (buildErrorMessage tried errors) := by
  have hline : ("  Error: " ++ e) ∈ ollamaBlock errors := by
    simp [ollamaBlock, h]
  refine substrOf_trans
    (⟨"  Error: ".data, [], by simp [str_data_append]⟩ :
      SubstrOf e ("  Error: " ++ e)) ?_
  exact substrOf_mem_joinLines (by simp [buildErrorMessage, hline])

theorem substr_buildErrorMessage_gemini {e : String} {tried : List String}
    {errors : List (String × String)} (h : lookupErr "GeminiProvider" errors = some e) :
    SubstrOf e (buildErrorMessage tried errors) := by
  have hline : ("  Error: " ++ e) ∈ geminiBlock errors := by
    simp [geminiBlock, h]
  refine substrOf_trans
    (⟨"  Error: ".data, [], by simp [str_data_append]⟩ :
      SubstrOf e ("  Error: " ++ e)) ?_
  exact substrOf_mem_joinLines (by simp [buildErrorMessage, hline])

theorem tryProviders_ok :
    ∀ (l : List (String × Except String Bool)) (tried : List String)
      (errors : List (String × String)) (n : String),
      firstAvailable l = some n → tryProviders l tried errors = .ok n := by
  intro l
  induction l with
  | nil => intro tried errors n h; simp [firstAvailable] at h
  | cons p rest ih =>
    intro tried errors n h
    obtain ⟨name, behavior⟩ := p
    cases behavior with
    | ok b =>
      cases b with
      | true =>
        have : n = name := by
          simp [firstAvailable, List.find?_cons_of_pos, isAvailOk] at h
          exact h.symm
        rw [this]
        rfl
      | false =>
        have hrest : firstAvailable rest = some n := by
          simpa [firstAvailable, List.find?_cons_of_neg, isAvailOk] using h
        simpa [tryProviders] using ih _ _ n hrest
    | error e =>
      have hrest : firstAvailable rest = some n := by
        simpa [firstAvailable, List.find?_cons_of_neg, isAvailOk] using h
      simpa [tryProviders] using ih _ _ n hrest

theorem tryProviders_none :
    ∀ (l : List (String × Except String Bool)) (tried : List String)
      (errors : List (String × String)),
      firstAvailable l = none →
      tryProviders l tried errors
        = .error (buildErrorMessage (tried ++ l.map Prod.fst)
            (errors ++ l.map (fun p => (p.1, failure_reason p)))) := by
  intro l
  induction l with
  | nil => intro tried errors _; simp [tryProviders]
  | cons p rest ih =>
    intro tried errors h
    obtain ⟨name, behavior⟩ := p
    cases behavior with
    | ok b =>
      cases b with
      | true => simp [firstAvailable, List.find?_cons_of_pos, isAvailOk] at h
      | false =>
        have hrest : firstAvailable rest = none := by
          simpa [firstAvailable, List.find?_cons_of_neg, isAvailOk] using h
        have := ih (tried ++ [name])
          (errors ++ [(name, name ++ " instantiated but not available")]) hrest
        simpa [tryProviders, failure_reason, List.append_assoc] using this
    | error e =>
      have hrest : firstAvailable rest = none := by
        simpa [firstAvailable, List.find?_cons_of_neg, isAvailOk] using h
      have := ih (tried ++ [name]) (errors ++ [(name, e)]) hrest
      simpa [tryProviders, failure_reason, List.append_assoc] using this

/-- C1: create_provider instantiates the candidates in order (Gemini then
Ollama by default, reversed under prefer_local), returns the first whose
is_available() is true, moves on past constructor exceptions and unavailable
instances, and when none is available raises a RuntimeError whose message
names every attempted backend together with its failure reason. -/
theorem create_provider_spec :
    ∀ (prefer_local : Bool) (gemini ollama : Except String Bool),
      (∀ n, firstAvailable (providerOrder prefer_local gemini ollama) = some n →
        create_provider prefer_local gemini ollama = .ok n)
    ∧ (firstAvailable (providerOrder prefer_local gemini ollama) = none →
        ∃ msg, create_provider prefer_local gemini ollama = .error msg
          ∧ ∀ p ∈ providerOrder prefer_local gemini ollama,
              SubstrOf p.1 msg ∧ SubstrOf (failure_reason p) msg) := by
  intro prefer_local gemini ollama
  constructor
  · intro n h
    exact tryProviders_ok _ [] [] n h
  · intro h
    refine ⟨_, tryProviders_none _ [] [] h, ?_⟩
    intro p hp
    cases prefer_local with
    | false =>
      simp [providerOrder] at hp ⊢
      rcases hp with rfl | rfl
      · refine ⟨substr_buildErrorMessage_tried (by simp), ?_⟩
        exact substr_buildErrorMessage_gemini rfl
      · refine ⟨substr_buildErrorMessage_tried (by simp), ?_⟩
        exact substr_buildErrorMessage_ollama rfl
    | true =>
      simp [providerOrder] at hp ⊢
      rcases hp with rfl | rfl
      · refine ⟨substr_buildErrorMessage_tried (by simp), ?_⟩
        exact substr_buildErrorMessage_ollama rfl
      · refine ⟨substr_buildErrorMessage_tried (by simp), ?_⟩
        exact substr_buildErrorMessage_gemini rfl
